import Mathlib

/-!
Verification of the audio capture / chunked recognition core of
cloud_whisper_flow_v2 (src/core/transcriber.py, src/core/recorder.py,
src/core/workers.py), as a shallow embedding in Lean.

Modelling conventions:
- PCM byte buffers are `List Nat` with every entry below 256.
- numpy int16 arrays are `List Int` holding the signed sample values; the
  model works with one-dimensional data, so `flatten` is the identity.
- Python floats are modelled as rationals; `astype(np.int16)` on a float is
  the C cast, truncation toward zero followed by a wrap into 16 bits.
- The Vosk decoder is external; the model records the exact sequence of
  decoder interactions (construction, AcceptWaveform payloads, result
  retrieval calls) and takes the text the decoder would return as an oracle.
- A Python exception is a `.error` value of an `Except`, or a `true` flag in
  a returned pair where mutated state must survive the raise.
-/

/-- A call made by `Transcriber.transcribe` on the Vosk decoder:
construction of `KaldiRecognizer`, one `AcceptWaveform` with its raw byte
payload, a `FinalResult` retrieval, or a fallback `Result` retrieval. -/
inductive DecoderCall
  | construct
  | acceptWaveform (payload : List Nat)
  | finalRetrieval
  | fallbackRetrieval
  deriving DecidableEq

/-- Oracle for the external Vosk decoder results: `finalText` is the text
parsed out of `FinalResult` when that parse succeeds, `fallbackText`
likewise for the fallback `Result` call (transcriber.py lines 110-122). -/
structure DecoderOracle where
  finalText : Option String
  fallbackText : Option String

/-- A numpy array as the transcriber and the recorder callback see it:
its dtype together with the element values.  `int16` is the canonical
dtype; `float` holds rationals in place of machine floats; `otherInt` is
any other integer dtype; `nonNumeric` is a dtype (such as a string array)
that `astype(np.int16)` cannot convert. -/
inductive NDArr
  | int16 (vals : List Int)
  | float (vals : List ℚ)
  | otherInt (vals : List Int)
  | nonNumeric (vals : List String)
  deriving DecidableEq

/-- Element count of the array (`arr.size`). -/
def NDArr.size : NDArr → Nat
  | .int16 v => v.length
  | .float v => v.length
  | .otherInt v => v.length
  | .nonNumeric v => v.length

/-- Truncation of a rational toward zero, the semantics of a C float-to-int
cast as performed by numpy `astype` on in-range values. -/
def truncQ (q : ℚ) : Int :=
  if 0 ≤ q then ⌊q⌋ else ⌈q⌉

/-- Wrap an integer into the signed 16-bit range, the effect of storing an
integer value into an int16 array. -/
def toInt16 (n : Int) : Int :=
  (n + 32768) % 65536 - 32768

/-- Clamp to the unit interval: `np.clip(arr, -1.0, 1.0)` elementwise
(transcriber.py line 90, recorder.py line 124). -/
def clampQ (x : ℚ) : ℚ :=
  max (-1) (min 1 x)

/-- Float sample to int16: `np.clip(arr, -1.0, 1.0)` followed by
`(arr * 32767).astype(np.int16)` (transcriber.py lines 90-91, recorder.py
lines 124-125). -/
def normalizeFloatSample (x : ℚ) : Int :=
  toInt16 (truncQ (clampQ x * 32767))

/-- The normalization the spec describes, for comparison: clamp, scale by
32767, then round toward the nearest integer. -/
def specRoundNormalize (x : ℚ) : Int :=
  round (clampQ x * 32767)

/-- Dtype dispatch of transcriber.py lines 89-93 and recorder.py lines
120-127: floats are clamped and scaled, other numeric dtypes are cast with
wrap, int16 passes through; a non-numeric dtype raises `ValueError` from
`astype` unless the array is empty (casting zero elements succeeds). -/
def astypeInt16 : NDArr → Except Unit (List Int)
  | .int16 v => .ok v
  | .float v => .ok (v.map normalizeFloatSample)
  | .otherInt v => .ok (v.map toInt16)
  | .nonNumeric [] => .ok []
  | .nonNumeric (_ :: _) => .error ()

/-- Little-endian byte pair to a signed 16-bit sample value, as
`np.frombuffer(pcm_bytes, dtype=np.int16)` reads it. -/
def bytePairToSample (lo hi : Nat) : Int :=
  if 32768 ≤ lo + 256 * hi then (lo + 256 * hi : Int) - 65536
  else (lo + 256 * hi : Int)

/-- Signed 16-bit sample value back to its two little-endian bytes, as
`chunk.tobytes()` writes it. -/
def sampleToBytes (s : Int) : List Nat :=
  [(s % 65536).toNat % 256, (s % 65536).toNat / 256]

/-- Reinterpret a raw byte buffer as int16 samples
(`np.frombuffer(pcm_bytes, dtype=np.int16)`, transcriber.py line 141);
fails when the byte count is not a multiple of the element size. -/
def bytesToSamples : List Nat → Option (List Int)
  | [] => some []
  | [_] => none
  | lo :: hi :: rest => (bytesToSamples rest).map (bytePairToSample lo hi :: ·)

/-- The chunk decomposition of transcriber.py lines 105-107: the slices
`arr[i : i + 4000]` for `i` in `range(0, arr.size, 4000)`. -/
def chunks4000 (l : List Int) : List (List Int) :=
  (List.range ((l.length + 3999) / 4000)).map fun i => (l.drop (4000 * i)).take 4000

/-- Message raised when the model is not loaded (transcriber.py lines 76
and 137). -/
def modelNotLoadedMsg : String :=
  "Model not loaded. Call load_model() first."

/-- Shallow embedding of `Transcriber.transcribe` (transcriber.py lines
61-127).  Returns the sequence of decoder calls made together with the
Python-level outcome (`.ok text` or `.error message` for a raised
`TranscriberError`).  The model assumes Vosk imported successfully, which
holds whenever `loaded` is true since `load_model` needs the import. -/
def transcribe (loaded : Bool) (audio : Option NDArr) (dec : DecoderOracle) :
    List DecoderCall × Except String String :=
  if loaded = true then
    match audio with
    | none => ([], .ok "")
    | some a =>
      if a.size = 0 then ([], .ok "")
      else
        match astypeInt16 a with
        | .error _ => ([], .error "Transcription failed: cannot cast array to int16")
        | .ok arr =>
          let calls := DecoderCall.construct ::
            (chunks4000 arr).map fun c => DecoderCall.acceptWaveform (c.flatMap sampleToBytes)
          match dec.finalText with
          | some t => (calls ++ [DecoderCall.finalRetrieval], .ok t)
          | none =>
            match dec.fallbackText with
            | some t => (calls ++ [DecoderCall.finalRetrieval, DecoderCall.fallbackRetrieval], .ok t)
            | none => (calls ++ [DecoderCall.finalRetrieval, DecoderCall.fallbackRetrieval],
                .error "Failed to parse recognition result")
  else ([], .error modelNotLoadedMsg)

/-- Shallow embedding of `Transcriber.feed_pcm` (transcriber.py lines
129-144): model check, empty short-circuit, `np.frombuffer` reinterpretation
(raising on an odd byte count), then delegation to `transcribe`; any
exception from the try block is wrapped into a `TranscriberError` whose
message starts with `feed_pcm failed:`. -/
def feed_pcm (loaded : Bool) (pcm : List Nat) (dec : DecoderOracle) :
    List DecoderCall × Except String String :=
  if loaded = true then
    if pcm.isEmpty then ([], .ok "")
    else
      match bytesToSamples pcm with
      | none => ([], .error "feed_pcm failed: buffer size must be a multiple of element size")
      | some arr =>
        match transcribe loaded (some (.int16 arr)) dec with
        | (calls, .ok t) => (calls, .ok t)
        | (calls, .error m) => (calls, .error ("feed_pcm failed: " ++ m))
  else ([], .error modelNotLoadedMsg)

/-- The `AcceptWaveform` payloads of a decoder call trace, in order. -/
def acceptPayloads : List DecoderCall → List (List Nat)
  | [] => []
  | .acceptWaveform b :: rest => b :: acceptPayloads rest
  | _ :: rest => acceptPayloads rest

/-!
Recorder model (src/core/recorder.py).  The mutable fields of
`AudioRecorder` that the capture claims are about: `_recording`,
`_audio_data` and `_overflow_count`.  The `_stream` handle and device
fields are external resources and not part of the claims.
-/

/-- Mutable capture state of an `AudioRecorder`. -/
structure RecState where
  recording : Bool
  audio_data : List (List Int)
  overflow_count : Nat
  deriving DecidableEq

/-- The `status` argument the audio backend passes to the callback:
absent (`None`, falsy), a flags object with a truth value and an
`input_overflow` attribute, an object whose truth test itself raises, or a
truthy object whose attribute access raises. -/
inductive PyStatus
  | noneStatus
  | flags (truthy : Bool) (input_overflow : Bool)
  | raisingBool
  | raisingAttr
  deriving DecidableEq

/-- The buffer-reset effect of a successful `AudioRecorder.start`
(recorder.py lines 169-171): fresh data list, overflow counter zeroed,
recording flag set. -/
def startReset : RecState :=
  ⟨true, [], 0⟩

/-- The overflow-tracking step of the callback (recorder.py lines 109-116):
for a truthy status, probe `input_overflow` inside a try block that
swallows an attribute failure, incrementing the counter when the flag is
readable and true. -/
def statusPhase (s : RecState) (status : PyStatus) : RecState :=
  match status with
  | .flags true true => { s with overflow_count := s.overflow_count + 1 }
  | _ => s

/-- The data-handling step of the callback (recorder.py lines 117-135):
return on `None`, convert the array to int16 (an `astype` failure on a
non-empty non-numeric array escapes, given lines 119-127 sit outside any
try block), then append while recording. -/
def dataPhase (s : RecState) (indata : Option NDArr) : RecState × Bool :=
  match indata with
  | none => (s, false)
  | some a =>
    match astypeInt16 a with
    | .error _ => (s, true)
    | .ok arr =>
      (if s.recording then { s with audio_data := s.audio_data ++ [arr] } else s, false)

/-- Shallow embedding of `AudioRecorder._audio_callback` (recorder.py lines
107-135).  Returns the state after the call and a flag telling whether an
exception escaped the callback.  The truth test `if status:` on line 109
precedes the try block, so a status whose truth test raises escapes
immediately; otherwise the overflow step runs, then the data step. -/
def audio_callback (s : RecState) (indata : Option NDArr) (status : PyStatus) :
    RecState × Bool :=
  match status with
  | .raisingBool => (s, true)
  | _ => dataPhase (statusPhase s status) indata

/-- Shallow embedding of `AudioRecorder.stop` (recorder.py lines 220-236):
a no-op returning an empty int16 array when not recording, otherwise clear
the flag and return the concatenation of the buffered blocks. -/
def stop (s : RecState) : RecState × List Int :=
  if s.recording = false then (s, [])
  else ({ s with recording := false }, s.audio_data.flatten)

/-- Shallow embedding of `AudioRecorder.get_overflow_count` (recorder.py
lines 242-244). -/
def get_overflow_count (s : RecState) : Nat :=
  s.overflow_count

/-- Run a sequence of callback invocations against a recorder state,
stopping at the first invocation that lets an exception escape. -/
def runCallbacks : RecState → List (Option NDArr × PyStatus) → RecState × Bool
  | s, [] => (s, false)
  | s, cb :: rest =>
    match audio_callback s cb.1 cb.2 with
    | (s1, false) => runCallbacks s1 rest
    | (s1, true) => (s1, true)

/-- Whether the status truth test of line 109 completes without raising. -/
def statusBoolOk (st : PyStatus) : Bool :=
  match st with
  | .raisingBool => false
  | _ => true

/-- Whether the dtype conversion of lines 119-127 completes without
raising: the data is absent or is not a non-empty non-numeric array. -/
def indataOk (indata : Option NDArr) : Bool :=
  match indata with
  | some (.nonNumeric (_ :: _)) => false
  | _ => true

/-- A callback invocation on which the source callback finishes normally. -/
def callbackOk (cb : Option NDArr × PyStatus) : Bool :=
  statusBoolOk cb.2 && indataOk cb.1

/-- Whether a status argument flags an input overflow: it must be truthy
(line 109) and carry a readable true `input_overflow` attribute. -/
def isOverflowFlagged (st : PyStatus) : Bool :=
  match st with
  | .flags true true => true
  | _ => false

/-- Number of overflow-flagged invocations in a callback sequence. -/
def countFlagged (cbs : List (Option NDArr × PyStatus)) : Nat :=
  cbs.countP fun cb => isOverflowFlagged cb.2

/-!
Worker model (src/core/workers.py, `RecordingWorker.run`).  The recorder,
the transcriber and the poll loop are external effects; a behavior records
the outcome of each stage.  Signal emissions are modelled as an ordered
event list.
-/

/-- A signal emission observable by the UI layer. -/
inductive Ev
  | recording_started
  | recording_stopped
  | transcription_started
  | transcription_complete (text : String)
  | transcription_error (msg : String)
  | status_update (msg : String)
  deriving DecidableEq

/-- A Python exception reaching `RecordingWorker.run`: the two typed errors
of the pipeline or an arbitrary other `Exception`. -/
inductive PyExc
  | audioRecorderError (msg : String)
  | transcriberError (msg : String)
  | otherExc (msg : String)
  deriving DecidableEq

/-- Outcomes of the three effectful stages of one worker run. -/
structure WorkerBehavior where
  startOutcome : Option PyExc
  stopOutcome : Except PyExc (List Int)
  transcribeOutcome : List Int → Except PyExc String

/-- The error event the except clauses of workers.py lines 73-78 emit for a
caught exception. -/
def errEv : PyExc → Ev
  | .audioRecorderError m => .transcription_error ("Recording error: " ++ m)
  | .transcriberError m => .transcription_error ("Transcription error: " ++ m)
  | .otherExc m => .transcription_error ("Unexpected error: " ++ m)

/-- The try block of `RecordingWorker.run` (workers.py lines 40-71): the
events emitted so far, together with the exception leaving the block if
one was raised. -/
def workerRunBody (b : WorkerBehavior) : List Ev × Option PyExc :=
  let ev0 := [Ev.recording_started, Ev.status_update "Recording..."]
  match b.startOutcome with
  | some e => (ev0, some e)
  | none =>
    match b.stopOutcome with
    | .error e => (ev0, some e)
    | .ok audioData =>
      let ev1 := ev0 ++ [Ev.recording_stopped]
      if audioData.length = 0 then
        (ev1 ++ [Ev.transcription_error "No audio recorded"], none)
      else
        let ev2 := ev1 ++ [Ev.transcription_started, Ev.status_update "Processing..."]
        match b.transcribeOutcome audioData with
        | .error e => (ev2, some e)
        | .ok text => (ev2 ++ [Ev.transcription_complete text, Ev.status_update "Ready"], none)

/-- Shallow embedding of `RecordingWorker.run` (workers.py lines 34-78):
the try block followed by the three except clauses, which convert any
caught exception into one `transcription_error` emission.  The second
component is the exception propagating out of `run`. -/
def workerRun (b : WorkerBehavior) : List Ev × Option PyExc :=
  match workerRunBody b with
  | (evs, some e) => (evs ++ [errEv e], none)
  | (evs, none) => (evs, none)

/-- Whether an event is an error notification. -/
def isErrEv : Ev → Bool
  | .transcription_error _ => true
  | _ => false

/-- Number of error notifications in an event list. -/
def errCount (evs : List Ev) : Nat :=
  evs.countP isErrEv

/-!
Helper lemmas about chunking and the byte/sample reinterpretations.
-/

theorem rangeChunks_flatten (k : Nat) :
    ∀ l : List Int, l.length ≤ 4000 * k →
      ((List.range k).map fun i => (l.drop (4000 * i)).take 4000).flatten = l := by
  induction k with
  | zero =>
    intro l h
    have : l = [] := List.length_eq_zero.mp (by omega)
    simp [this]
  | succ k ih =>
    intro l h
    rw [List.range_succ_eq_map, List.map_cons, List.map_map, List.flatten_cons]
    have hmap : ((List.range k).map ((fun i => (l.drop (4000 * i)).take 4000) ∘ (· + 1))) =
        (List.range k).map fun i => ((l.drop 4000).drop (4000 * i)).take 4000 := by
      apply List.map_congr_left
      intro i _
      simp only [Function.comp_apply, List.drop_drop]
      congr 2
      omega
    rw [hmap, ih (l.drop 4000) (by simp only [List.length_drop]; omega)]
    exact List.take_append_drop 4000 l

theorem chunks4000_flatten (l : List Int) : (chunks4000 l).flatten = l := by
  apply rangeChunks_flatten
  omega

theorem chunks4000_length (l : List Int) :
    (chunks4000 l).length = (l.length + 3999) / 4000 := by
  simp [chunks4000]

theorem chunks4000_mem_length {l c : List Int} (hc : c ∈ chunks4000 l) :
    c.length ≤ 4000 := by
  obtain ⟨i, _, rfl⟩ := List.mem_map.mp hc
  simp only [List.length_take]
  omega

theorem sampleToBytes_bytePair (lo hi : Nat) (hlo : lo < 256) (hhi : hi < 256) :
    sampleToBytes (bytePairToSample lo hi) = [lo, hi] := by
  unfold sampleToBytes bytePairToSample
  split <;>
    · simp only [List.cons.injEq, and_true]
      constructor <;> omega

theorem bytesToSamples_flatMap : ∀ (l : List Nat) (arr : List Int),
    (∀ b ∈ l, b < 256) → bytesToSamples l = some arr →
    arr.flatMap sampleToBytes = l
  | [], arr, _, h => by
    simp only [bytesToSamples, Option.some.injEq] at h
    simp [← h]
  | [_], arr, _, h => by
    simp [bytesToSamples] at h
  | lo :: hi :: rest, arr, hb, h => by
    simp only [bytesToSamples, Option.map_eq_some'] at h
    obtain ⟨arr0, h0, rfl⟩ := h
    have ih := bytesToSamples_flatMap rest arr0
      (fun b hbm => hb b (by simp [hbm])) h0
    rw [List.flatMap_cons, ih,
      sampleToBytes_bytePair lo hi (hb lo (by simp)) (hb hi (by simp))]
    rfl

theorem bytesToSamples_length : ∀ (l : List Nat) (arr : List Int),
    bytesToSamples l = some arr → 2 * arr.length = l.length
  | [], arr, h => by
    simp only [bytesToSamples, Option.some.injEq] at h
    simp [← h]
  | [_], arr, h => by
    simp [bytesToSamples] at h
  | lo :: hi :: rest, arr, h => by
    simp only [bytesToSamples, Option.map_eq_some'] at h
    obtain ⟨arr0, h0, rfl⟩ := h
    have ih := bytesToSamples_length rest arr0 h0
    simp only [List.length_cons]
    omega

theorem bytesToSamples_isSome_of_even : ∀ l : List Nat,
    l.length % 2 = 0 → (bytesToSamples l).isSome
  | [], _ => by simp [bytesToSamples]
  | [_], h => by simp at h
  | _ :: _ :: rest, h => by
    have ih := bytesToSamples_isSome_of_even rest
      (by simp only [List.length_cons] at h; omega)
    simp only [bytesToSamples, Option.isSome_map']
    exact ih

theorem bytesToSamples_eq_none_of_odd : ∀ l : List Nat,
    l.length % 2 = 1 → bytesToSamples l = none
  | [], h => by simp at h
  | [_], _ => by simp [bytesToSamples]
  | _ :: _ :: rest, h => by
    have ih := bytesToSamples_eq_none_of_odd rest
      (by simp only [List.length_cons] at h; omega)
    simp [bytesToSamples, ih]

theorem length_flatMap_sampleToBytes (xs : List Int) :
    (xs.flatMap sampleToBytes).length = 2 * xs.length := by
  induction xs with
  | nil => simp
  | cons x r ih =>
    rw [List.flatMap_cons, List.length_append, ih]
    simp only [sampleToBytes, List.length_cons, List.length_nil, List.length_cons]
    omega

theorem flatten_map_flatMap (ll : List (List Int)) (f : Int → List Nat) :
    (ll.map fun c => c.flatMap f).flatten = ll.flatten.flatMap f := by
  induction ll with
  | nil => simp
  | cons c r ih => simp [ih]

theorem acceptPayloads_append (t1 t2 : List DecoderCall) :
    acceptPayloads (t1 ++ t2) = acceptPayloads t1 ++ acceptPayloads t2 := by
  induction t1 with
  | nil => rfl
  | cons c r ih => cases c <;> simp [acceptPayloads, ih]

theorem acceptPayloads_map (f : List Int → List Nat) (cs : List (List Int)) :
    acceptPayloads (cs.map fun c => DecoderCall.acceptWaveform (f c)) = cs.map f := by
  induction cs with
  | nil => rfl
  | cons c r ih => simp [acceptPayloads, ih]

theorem transcribe_trace (arr : List Int) (dec : DecoderOracle) (h : arr ≠ []) :
    acceptPayloads (transcribe true (some (.int16 arr)) dec).1 =
      (chunks4000 arr).map fun c => c.flatMap sampleToBytes := by
  have hsz : ¬ (NDArr.int16 arr).size = 0 := by
    simpa [NDArr.size, List.length_eq_zero] using h
  rcases dec with ⟨ft, fb⟩
  cases ft <;> cases fb <;>
    simp [transcribe, hsz, astypeInt16, acceptPayloads, acceptPayloads_append,
      acceptPayloads_map]

theorem clampQ_le_one (x : ℚ) : clampQ x ≤ 1 :=
  max_le (by norm_num) (min_le_left 1 x)

theorem neg_one_le_clampQ (x : ℚ) : -1 ≤ clampQ x :=
  le_max_left _ _

theorem truncQ_bounds {q : ℚ} (h1 : -32767 ≤ q) (h2 : q ≤ 32767) :
    -32767 ≤ truncQ q ∧ truncQ q ≤ 32767 := by
  unfold truncQ
  split
  case isTrue h =>
    constructor
    · have h0 : (0 : Int) ≤ ⌊q⌋ := Int.le_floor.mpr (by exact_mod_cast h)
      omega
    · have hf : (⌊q⌋ : ℚ) ≤ 32767 := le_trans (Int.floor_le q) h2
      exact_mod_cast hf
  case isFalse h =>
    push_neg at h
    constructor
    · have hc : (-32767 : ℚ) ≤ (⌈q⌉ : ℚ) := le_trans h1 (Int.le_ceil q)
      exact_mod_cast hc
    · have hc : ⌈q⌉ ≤ (0 : Int) := Int.ceil_le.mpr (by exact_mod_cast h.le)
      omega

theorem toInt16_eq_self {n : Int} (h1 : -32768 ≤ n) (h2 : n ≤ 32767) :
    toInt16 n = n := by
  unfold toInt16
  omega

theorem feed_pcm_trace (pcm : List Nat) (arr : List Int) (dec : DecoderOracle)
    (hne : pcm ≠ []) (hbs : bytesToSamples pcm = some arr) :
    (feed_pcm true pcm dec).1 = (transcribe true (some (.int16 arr)) dec).1 := by
  unfold feed_pcm
  rw [if_pos rfl, if_neg (by simpa [List.isEmpty_iff] using hne), hbs]
  rcases htr : transcribe true (some (.int16 arr)) dec with ⟨calls, res⟩
  cases res <;> simp [htr]

theorem statusPhase_overflow_count (s : RecState) (status : PyStatus) :
    (statusPhase s status).overflow_count =
      s.overflow_count + (if isOverflowFlagged status then 1 else 0) := by
  rcases status with _ | ⟨t, ov⟩ | _ | _ <;>
    first
      | rfl
      | (cases t <;> cases ov <;> rfl)

theorem statusPhase_recording (s : RecState) (status : PyStatus) :
    (statusPhase s status).recording = s.recording := by
  rcases status with _ | ⟨t, ov⟩ | _ | _ <;>
    first
      | rfl
      | (cases t <;> cases ov <;> rfl)

theorem dataPhase_ok (s : RecState) (indata : Option NDArr)
    (h : indataOk indata = true) :
    (dataPhase s indata).2 = false ∧
    (dataPhase s indata).1.overflow_count = s.overflow_count ∧
    (dataPhase s indata).1.recording = s.recording := by
  rcases indata with _ | (v | v | v | (_ | ⟨b, v⟩))
  case none => exact ⟨rfl, rfl, rfl⟩
  case some.nonNumeric.cons => simp [indataOk] at h
  all_goals
    refine ⟨?_, ?_, ?_⟩ <;>
      (simp only [dataPhase, astypeInt16]; all_goals first | rfl | (split <;> rfl))

theorem audio_callback_notRaising (s : RecState) (indata : Option NDArr)
    (status : PyStatus) (hst : status ≠ .raisingBool) :
    audio_callback s indata status = dataPhase (statusPhase s status) indata := by
  rcases status with _ | ⟨t, ov⟩ | _ | _ <;> first | rfl | exact absurd rfl hst

theorem audio_callback_ok (s : RecState) (indata : Option NDArr) (status : PyStatus)
    (h : callbackOk (indata, status) = true) :
    (audio_callback s indata status).2 = false ∧
    (audio_callback s indata status).1.overflow_count =
      s.overflow_count + (if isOverflowFlagged status then 1 else 0) ∧
    (audio_callback s indata status).1.recording = s.recording := by
  rw [callbackOk, Bool.and_eq_true] at h
  have hst : status ≠ .raisingBool := by
    intro hs
    rw [hs] at h
    simp [statusBoolOk] at h
  have hdata : indataOk indata = true := h.2
  rw [audio_callback_notRaising s indata status hst]
  obtain ⟨d1, d2, d3⟩ := dataPhase_ok (statusPhase s status) indata hdata
  refine ⟨d1, ?_, ?_⟩
  · rw [d2, statusPhase_overflow_count]
  · rw [d3, statusPhase_recording]

theorem runCallbacks_ok : ∀ (cbs : List (Option NDArr × PyStatus)) (s : RecState),
    (∀ cb ∈ cbs, callbackOk cb = true) →
    (runCallbacks s cbs).2 = false ∧
    (runCallbacks s cbs).1.overflow_count = s.overflow_count + countFlagged cbs ∧
    (runCallbacks s cbs).1.recording = s.recording
  | [], s, _ => by simp [runCallbacks, countFlagged]
  | cb :: rest, s, h => by
    obtain ⟨h1, h2, h3⟩ := audio_callback_ok s cb.1 cb.2 (h cb (by simp))
    rcases hac : audio_callback s cb.1 cb.2 with ⟨s1, raised⟩
    rw [hac] at h1 h2 h3
    dsimp at h1 h2 h3
    subst h1
    obtain ⟨ih1, ih2, ih3⟩ := runCallbacks_ok rest s1 fun c hc => h c (by simp [hc])
    have hrun : runCallbacks s (cb :: rest) = runCallbacks s1 rest := by
      simp [runCallbacks, hac]
    rw [hrun]
    refine ⟨ih1, ?_, by rw [ih3, h3]⟩
    rw [ih2, h2]
    have hcf : countFlagged (cb :: rest) =
        (if isOverflowFlagged cb.2 then 1 else 0) + countFlagged rest := by
      simp only [countFlagged, List.countP_cons]
      split <;> omega
    omega

theorem errEv_readable (e : PyExc) :
    ∃ m, errEv e = Ev.transcription_error m ∧ m ≠ "" := by
  cases e with
  | audioRecorderError s =>
    refine ⟨_, rfl, fun hemp => ?_⟩
    have hl := congrArg String.length hemp
    rw [String.length_append] at hl
    have : ("Recording error: ").length = 17 := rfl
    have : ("").length = 0 := rfl
    omega
  | transcriberError s =>
    refine ⟨_, rfl, fun hemp => ?_⟩
    have hl := congrArg String.length hemp
    rw [String.length_append] at hl
    have : ("Transcription error: ").length = 21 := rfl
    have : ("").length = 0 := rfl
    omega
  | otherExc s =>
    refine ⟨_, rfl, fun hemp => ?_⟩
    have hl := congrArg String.length hemp
    rw [String.length_append] at hl
    have : ("Unexpected error: ").length = 18 := rfl
    have : ("").length = 0 := rfl
    omega

/-!
Claim theorems.
-/

/-- Claim C1: for a loaded recognizer and a well-formed PCM byte buffer of
length L (16-bit samples, so L even, bytes below 256), `feed_pcm` submits
exactly ceil(L / 8000) `AcceptWaveform` chunks, each of at most 8000 bytes
(4000 samples), sequentially, and their concatenation in submission order
is exactly the original byte buffer. -/
theorem C1_chunked_feed (pcm : List Nat) (dec : DecoderOracle)
    (heven : pcm.length % 2 = 0) (hbytes : ∀ b ∈ pcm, b < 256) :
    (acceptPayloads (feed_pcm true pcm dec).1).length = (pcm.length + 7999) / 8000 ∧
    (∀ c ∈ acceptPayloads (feed_pcm true pcm dec).1, c.length ≤ 8000) ∧
    (acceptPayloads (feed_pcm true pcm dec).1).flatten = pcm := by
  by_cases hne : pcm = []
  · subst hne
    refine ⟨rfl, ?_, rfl⟩
    intro c hc
    have hempty : acceptPayloads (feed_pcm true ([] : List Nat) dec).1 = [] := rfl
    rw [hempty] at hc
    simp at hc
  · obtain ⟨arr, harr⟩ := Option.isSome_iff_exists.mp (bytesToSamples_isSome_of_even pcm heven)
    have hlen := bytesToSamples_length pcm arr harr
    have harrne : arr ≠ [] := by
      intro hnil
      subst hnil
      simp only [List.length_nil, Nat.mul_zero] at hlen
      exact hne (List.length_eq_zero.mp hlen.symm)
    rw [feed_pcm_trace pcm arr dec hne harr, transcribe_trace arr dec harrne]
    refine ⟨?_, ?_, ?_⟩
    · rw [List.length_map, chunks4000_length]
      omega
    · intro c hc
      obtain ⟨ch, hch, rfl⟩ := List.mem_map.mp hc
      rw [length_flatMap_sampleToBytes]
      have := chunks4000_mem_length hch
      omega
    · rw [flatten_map_flatMap, chunks4000_flatten]
      exact bytesToSamples_flatMap pcm arr hbytes harr

/-- Witness for C1 at a concrete six-byte buffer holding three samples. -/
theorem C1_chunked_feed_witness :
    ([1, 0, 2, 0, 3, 0] : List Nat).length % 2 = 0 ∧
    ((acceptPayloads (feed_pcm true [1, 0, 2, 0, 3, 0] ⟨some "hello", none⟩).1).length =
        (([1, 0, 2, 0, 3, 0] : List Nat).length + 7999) / 8000 ∧
      (∀ c ∈ acceptPayloads (feed_pcm true [1, 0, 2, 0, 3, 0] ⟨some "hello", none⟩).1,
        c.length ≤ 8000) ∧
      (acceptPayloads (feed_pcm true [1, 0, 2, 0, 3, 0] ⟨some "hello", none⟩).1).flatten =
        [1, 0, 2, 0, 3, 0]) :=
  ⟨by decide, C1_chunked_feed [1, 0, 2, 0, 3, 0] ⟨some "hello", none⟩ (by decide) (by decide)⟩

/-- Claim C2 counterexample: the code truncates toward zero rather than
rounding to the nearest integer: at input 1/4 the scaled value is 8191.75,
the code yields 8191 but the round-to-nearest mapping of the claim yields
8192. -/
theorem C2_truncation_counterexample :
    normalizeFloatSample (1/4) = 8191 ∧ specRoundNormalize (1/4) = 8192 := by
  have hc : clampQ (1/4 : ℚ) = 1/4 := by
    unfold clampQ
    rw [min_eq_right (by norm_num), max_eq_right (by norm_num)]
  constructor
  · unfold normalizeFloatSample
    rw [hc]
    have ht : truncQ ((1/4 : ℚ) * 32767) = 8191 := by
      unfold truncQ
      rw [if_pos (by norm_num)]
      rw [Int.floor_eq_iff]
      constructor <;> norm_num
    rw [ht]
    rfl
  · unfold specRoundNormalize
    rw [hc, round_eq]
    rw [Int.floor_eq_iff]
    constructor <;> norm_num

/-- Claim C2 amended: the float-to-PCM16 normalization clamps to [-1, 1],
scales by 32767 and truncates toward zero (the C cast semantics of
`astype(np.int16)`); input 1.5 yields 32767 and the result always lies in
[-32767, 32767], so no value ever wraps. -/
theorem C2_clamp_scale_truncate :
    (∀ x : ℚ, normalizeFloatSample x = truncQ (clampQ x * 32767) ∧
      -32767 ≤ normalizeFloatSample x ∧ normalizeFloatSample x ≤ 32767) ∧
    normalizeFloatSample (3/2) = 32767 := by
  have key : ∀ x : ℚ, normalizeFloatSample x = truncQ (clampQ x * 32767) ∧
      -32767 ≤ normalizeFloatSample x ∧ normalizeFloatSample x ≤ 32767 := by
    intro x
    have h1 : (-32767 : ℚ) ≤ clampQ x * 32767 := by
      have := neg_one_le_clampQ x
      nlinarith
    have h2 : clampQ x * 32767 ≤ 32767 := by
      have := clampQ_le_one x
      nlinarith
    obtain ⟨hb1, hb2⟩ := truncQ_bounds h1 h2
    have heq : normalizeFloatSample x = truncQ (clampQ x * 32767) := by
      unfold normalizeFloatSample
      exact toInt16_eq_self (by omega) hb2
    exact ⟨heq, heq ▸ hb1, heq ▸ hb2⟩
  refine ⟨key, ?_⟩
  have hc : clampQ (3/2 : ℚ) = 1 := by
    unfold clampQ
    rw [min_eq_left (by norm_num), max_eq_right (by norm_num)]
  rw [(key (3/2)).1, hc]
  have ht : truncQ ((1 : ℚ) * 32767) = 32767 := by
    unfold truncQ
    rw [if_pos (by norm_num)]
    rw [Int.floor_eq_iff]
    constructor <;> norm_num
  rw [ht]

/-- Claim C3 (code bug exhibit): the realtime callback does not survive
every input.  A non-empty non-numeric array reaches the unguarded
`astype(np.int16)` of recorder.py line 127 and the exception escapes the
callback, and a status object whose truth test raises escapes at line 109
before the try block; both contradict the never-raise requirement. -/
theorem C3_callback_escape_exhibit :
    audio_callback ⟨true, [], 0⟩ (some (.nonNumeric ["x"])) .noneStatus =
      (⟨true, [], 0⟩, true) ∧
    audio_callback ⟨true, [], 0⟩ none .raisingBool = (⟨true, [], 0⟩, true) :=
  ⟨rfl, rfl⟩

/-- Claim C4: the worker run lets no exception cross the worker boundary,
emits at most one error notification, and whenever the try block raised it
emits exactly one error notification with a non-empty message. -/
theorem C4_worker_catches_all (b : WorkerBehavior) :
    (workerRun b).2 = none ∧
    errCount (workerRun b).1 ≤ 1 ∧
    ∀ e, (workerRunBody b).2 = some e →
      errCount (workerRun b).1 = 1 ∧
      ∃ m, Ev.transcription_error m ∈ (workerRun b).1 ∧ m ≠ "" := by
  rcases b with ⟨so, sto, tro⟩
  rcases so with _ | e0
  case some =>
    obtain ⟨m, hm, hmne⟩ := errEv_readable e0
    refine ⟨rfl, by simp [workerRun, workerRunBody, errCount, isErrEv, hm], fun e he => ?_⟩
    refine ⟨by simp [workerRun, workerRunBody, errCount, isErrEv, hm], m, ?_, hmne⟩
    simp [workerRun, workerRunBody, hm]
  case none =>
    rcases sto with e0 | audioData
    case error =>
      obtain ⟨m, hm, hmne⟩ := errEv_readable e0
      refine ⟨rfl, by simp [workerRun, workerRunBody, errCount, isErrEv, hm], fun e he => ?_⟩
      refine ⟨by simp [workerRun, workerRunBody, errCount, isErrEv, hm], m, ?_, hmne⟩
      simp [workerRun, workerRunBody, hm]
    case ok =>
      by_cases hl : audioData.length = 0
      · refine ⟨by simp [workerRun, workerRunBody, hl],
          by simp [workerRun, workerRunBody, hl, errCount, isErrEv], fun e he => ?_⟩
        simp [workerRunBody, hl] at he
      · rcases htro : tro audioData with e0 | text
        · obtain ⟨m, hm, hmne⟩ := errEv_readable e0
          refine ⟨by simp [workerRun, workerRunBody, hl, htro],
            by simp [workerRun, workerRunBody, hl, htro, errCount, isErrEv, hm],
            fun e he => ?_⟩
          refine ⟨by simp [workerRun, workerRunBody, hl, htro, errCount, isErrEv, hm],
            m, ?_, hmne⟩
          simp [workerRun, workerRunBody, hl, htro, hm]
        · refine ⟨by simp [workerRun, workerRunBody, hl, htro],
            by simp [workerRun, workerRunBody, hl, htro, errCount, isErrEv], fun e he => ?_⟩
          simp [workerRunBody, hl, htro] at he

/-- Witness for C4 with a recorder whose start raises `AudioRecorderError`. -/
theorem C4_worker_catches_all_witness :
    (workerRunBody ⟨some (.audioRecorderError "boom"), .ok [], fun _ => .ok ""⟩).2 =
      some (PyExc.audioRecorderError "boom") ∧
    (errCount (workerRun ⟨some (.audioRecorderError "boom"), .ok [], fun _ => .ok ""⟩).1 = 1 ∧
      ∃ m, Ev.transcription_error m ∈
        (workerRun ⟨some (.audioRecorderError "boom"), .ok [], fun _ => .ok ""⟩).1 ∧ m ≠ "") :=
  ⟨rfl, (C4_worker_catches_all ⟨some (.audioRecorderError "boom"), .ok [],
    fun _ => .ok ""⟩).2.2 _ rfl⟩

/-- Claim C5: with the model loaded, feeding empty PCM bytes returns the
empty string, and transcribing any zero-sample array returns the empty
string, both with an empty decoder-call trace: no decoder construction,
no AcceptWaveform and no result retrieval. -/
theorem C5_empty_short_circuit (dec : DecoderOracle) :
    feed_pcm true [] dec = ([], .ok "") ∧
    transcribe true none dec = ([], .ok "") ∧
    ∀ a : NDArr, a.size = 0 → transcribe true (some a) dec = ([], .ok "") := by
  refine ⟨rfl, rfl, fun a ha => ?_⟩
  unfold transcribe
  rw [if_pos rfl]
  simp [ha]

/-- Witness for C5 at the empty int16 array. -/
theorem C5_empty_short_circuit_witness :
    (NDArr.int16 []).size = 0 ∧
    feed_pcm true [] ⟨some "x", none⟩ = ([], .ok "") ∧
    transcribe true (some (.int16 [])) ⟨some "x", none⟩ = ([], .ok "") :=
  ⟨rfl, (C5_empty_short_circuit ⟨some "x", none⟩).1,
    (C5_empty_short_circuit ⟨some "x", none⟩).2.2 _ rfl⟩

/-- Claim C6: across one session of callback invocations that complete
normally, the overflow counter after stop equals exactly the number of
overflow-flagged invocations, however many ordinary invocations
interleave, and capture stays active through every overflow. -/
theorem C6_overflow_accounting (cbs : List (Option NDArr × PyStatus))
    (h : ∀ cb ∈ cbs, callbackOk cb = true) :
    (runCallbacks startReset cbs).2 = false ∧
    (runCallbacks startReset cbs).1.recording = true ∧
    get_overflow_count (stop (runCallbacks startReset cbs).1).1 = countFlagged cbs := by
  obtain ⟨h1, h2, h3⟩ := runCallbacks_ok cbs startReset h
  have hrec : (runCallbacks startReset cbs).1.recording = true := by
    rw [h3]
    rfl
  refine ⟨h1, hrec, ?_⟩
  rw [stop, if_neg (by rw [hrec]; simp)]
  rw [get_overflow_count]
  show (runCallbacks startReset cbs).1.overflow_count = countFlagged cbs
  rw [h2]
  simp [startReset]

/-- Witness for C6: two flagged invocations among four yield a count of 2. -/
theorem C6_overflow_accounting_witness :
    (runCallbacks startReset [(none, .flags true true),
      (some (.int16 [1, 2]), .noneStatus), (none, .flags true false),
      (none, .flags true true)]).2 = false ∧
    (runCallbacks startReset [(none, .flags true true),
      (some (.int16 [1, 2]), .noneStatus), (none, .flags true false),
      (none, .flags true true)]).1.recording = true ∧
    get_overflow_count (stop (runCallbacks startReset [(none, .flags true true),
      (some (.int16 [1, 2]), .noneStatus), (none, .flags true false),
      (none, .flags true true)]).1).1 = countFlagged [(none, .flags true true),
      (some (.int16 [1, 2]), .noneStatus), (none, .flags true false),
      (none, .flags true true)] :=
  C6_overflow_accounting _ (by decide)

/-- Claim C7: stopping a recorder that is not recording is an idempotent
no-op: the state is returned unchanged together with an empty sample
sequence, and there is no exception path. -/
theorem C7_stop_noop (s : RecState) (h : s.recording = false) :
    stop s = (s, []) := by
  rw [stop, if_pos h]

/-- Witness for C7 on a stopped recorder with leftover buffered data. -/
theorem C7_stop_noop_witness :
    stop ⟨false, [[1, 2]], 5⟩ = (⟨false, [[1, 2]], 5⟩, []) :=
  C7_stop_noop _ rfl

/-- Claim C8: when stop yields an empty sample sequence the worker emits
exactly the recording notifications followed by a single empty-audio error
notification, never a transcription-started notification, and the event
list is the same for every transcriber behavior, so the transcriber is
never invoked. -/
theorem C8_empty_audio_skip (b : WorkerBehavior)
    (h1 : b.startOutcome = none) (h2 : b.stopOutcome = .ok []) :
    (workerRun b).1 = [Ev.recording_started, Ev.status_update "Recording...",
      Ev.recording_stopped, Ev.transcription_error "No audio recorded"] ∧
    Ev.transcription_started ∉ (workerRun b).1 ∧
    errCount (workerRun b).1 = 1 := by
  rcases b with ⟨so, sto, tro⟩
  dsimp only at h1 h2
  subst h1
  subst h2
  have hev : (workerRun ⟨none, Except.ok [], tro⟩).1 =
      [Ev.recording_started, Ev.status_update "Recording...",
        Ev.recording_stopped, Ev.transcription_error "No audio recorded"] := rfl
  refine ⟨hev, ?_, ?_⟩
  · rw [hev]
    decide
  · rw [hev]
    rfl

/-- Witness for C8 with a transcriber behavior that would return text if
it were ever consulted. -/
theorem C8_empty_audio_skip_witness :
    (workerRun ⟨none, Except.ok [], fun _ => Except.ok "never"⟩).1 =
      [Ev.recording_started, Ev.status_update "Recording...",
        Ev.recording_stopped, Ev.transcription_error "No audio recorded"] ∧
    Ev.transcription_started ∉
      (workerRun ⟨none, Except.ok [], fun _ => Except.ok "never"⟩).1 ∧
    errCount (workerRun ⟨none, Except.ok [], fun _ => Except.ok "never"⟩).1 = 1 :=
  C8_empty_audio_skip _ rfl rfl

/-- Claim C9: with the model not loaded, both `transcribe` and `feed_pcm`
raise `TranscriberError` for every input, including the inputs that would
otherwise short-circuit (empty array, empty bytes), because the model
check precedes the empty-input short-circuit in both entry points. -/
theorem C9_model_check_precedes (audioArg : Option NDArr) (pcm : List Nat)
    (dec : DecoderOracle) :
    transcribe false audioArg dec = ([], .error modelNotLoadedMsg) ∧
    feed_pcm false pcm dec = ([], .error modelNotLoadedMsg) :=
  ⟨rfl, rfl⟩

/-- Claim C10: a non-empty odd-length byte buffer cannot be reinterpreted
as 16-bit samples: `feed_pcm` raises `TranscriberError` wrapping the
`np.frombuffer` failure, makes no decoder call, and never truncates or
pads the trailing byte. -/
theorem C10_odd_length_raises (pcm : List Nat) (dec : DecoderOracle)
    (h : pcm.length % 2 = 1) :
    feed_pcm true pcm dec =
      ([], .error "feed_pcm failed: buffer size must be a multiple of element size") := by
  have hne : pcm.isEmpty = false := by
    cases pcm
    · simp at h
    · rfl
  simp [feed_pcm, hne, bytesToSamples_eq_none_of_odd pcm h]

/-- Witness for C10 at a single stray byte. -/
theorem C10_odd_length_raises_witness :
    ([7] : List Nat).length % 2 = 1 ∧
    feed_pcm true [7] ⟨some "x", none⟩ =
      ([], .error "feed_pcm failed: buffer size must be a multiple of element size") :=
  ⟨rfl, C10_odd_length_raises [7] ⟨some "x", none⟩ rfl⟩
